import Mathlib

/-!
Verification of the UniversalSkills agent framework (src/main.py) against its
natural-language specification.

The Python source is shallowly embedded: pure fragments become Lean functions,
external effects (filesystem, YAML parser, JSON decoder, subprocess launcher,
network completion calls) become explicit oracle parameters, and Python
exceptions are modelled by the `PyResult` sum type (`ret` = normal return,
`exc` = raised exception carrying `str(e)`).  Python's `str` operations used by
the source (`split`, `strip`, `lower`, `upper`, the `in` substring test,
`startswith`, `os.path.basename`) are implemented character-faithfully for the
ASCII fragment the source manipulates.
-/

/-- Result of running a piece of Python code: a normal return value or a raised
exception rendered as `str(e)`. -/
inductive PyResult (α : Type) where
  | ret (a : α)
  | exc (e : String)
deriving DecidableEq

/-- Test for an ASCII uppercase letter (codepoints 65-90). -/
def isUpperAscii (c : Char) : Bool := decide (65 ≤ c.toNat ∧ c.toNat ≤ 90)

/-- Test for an ASCII lowercase letter (codepoints 97-122). -/
def isLowerAscii (c : Char) : Bool := decide (97 ≤ c.toNat ∧ c.toNat ≤ 122)

/-- ASCII branch of Python's `str.lower` applied to one character. -/
def asciiLowerChar (c : Char) : Char :=
  if h : 65 ≤ c.toNat ∧ c.toNat ≤ 90 then
    ⟨⟨⟨⟨c.toNat + 32, by omega⟩⟩⟩, Or.inl (by simp [UInt32.toNat, BitVec.toNat]; omega)⟩
  else c

/-- ASCII branch of Python's `str.upper` applied to one character. -/
def asciiUpperChar (c : Char) : Char :=
  if h : 97 ≤ c.toNat ∧ c.toNat ≤ 122 then
    ⟨⟨⟨⟨c.toNat - 32, by omega⟩⟩⟩, Or.inl (by simp [UInt32.toNat, BitVec.toNat]; omega)⟩
  else c

/-- Python `s.lower()` (ASCII fragment). -/
def pyLower (s : String) : String := ⟨s.data.map asciiLowerChar⟩

/-- Python `s.upper()` (ASCII fragment). -/
def pyUpper (s : String) : String := ⟨s.data.map asciiUpperChar⟩

/-- Does the string hold at least one ASCII uppercase letter? -/
def hasUpper (s : String) : Bool := s.data.any isUpperAscii

/-- Helper for the Python substring test: does `n` occur as a contiguous run
inside the second list? -/
def inAux (n : List Char) : List Char → Bool
  | [] => n.isEmpty
  | c :: t => n.isPrefixOf (c :: t) || inAux n t

/-- Python's `needle in hay` substring test on strings. -/
def pyIn (needle hay : String) : Bool := inAux needle.data hay.data

/-- Python `s.startswith(p)`. -/
def pyStartsWith (s p : String) : Bool := p.data.isPrefixOf s.data

/-- Strip every leading and trailing character satisfying `p`
(Python `s.strip(chars)`). -/
def stripChars (p : Char → Bool) (s : String) : String :=
  ⟨((s.data.dropWhile p).reverse.dropWhile p).reverse⟩

/-- The whitespace characters stripped by Python's bare `s.strip()`. -/
def pyWhitespace : List Char := [' ', '\t', '\n', '\x0b', '\x0c', '\r']

/-- Python `s.strip()` (whitespace strip). -/
def pyStripWS (s : String) : String := stripChars (fun c => pyWhitespace.contains c) s

/-- Locate the first occurrence of `sep` in a character list, returning the
part before it and the part after it (with `sep` consumed). -/
def splitFirst (sep : List Char) : List Char → Option (List Char × List Char)
  | [] => none
  | c :: t =>
    if sep.isPrefixOf (c :: t) then some ([], (c :: t).drop sep.length)
    else
      match splitFirst sep t with
      | none => none
      | some (b, a) => some (c :: b, a)

/-- Worker for Python `s.split(sep, maxsplit)` on character lists. -/
def pySplitAux (sep : List Char) : Nat → List Char → List (List Char)
  | 0, l => [l]
  | Nat.succ n, l =>
    match splitFirst sep l with
    | none => [l]
    | some (b, a) => b :: pySplitAux sep n a

/-- Python `s.split(sep, maxsplit)` for a non-empty separator. -/
def pySplit (s sep : String) (maxsplit : Nat) : List String :=
  (pySplitAux sep.data maxsplit s.data).map (fun l => ⟨l⟩)

/-- Python `os.path.basename` on a POSIX path string: everything after the
last slash. -/
def pyBasename (s : String) : String :=
  match (s.splitOn ("/")).reverse with
  | [] => s
  | x :: _ => x

/-- The needle occurs somewhere inside the haystack (specification-level
reading of "contains"). -/
def strContains (hay needle : String) : Prop := ∃ a b : String, hay = a ++ needle ++ b

/-- The haystack begins with the given prefix (specification-level reading of
"begins with"). -/
def strStartsWith (hay p : String) : Prop := ∃ b : String, hay = p ++ b

/-- Concatenate `n` copies of a string (Python `s * n`). -/
def repeatStr (s : String) (n : Nat) : String := String.join (List.replicate n s)

/-! ### Skill loading (`AgentSkill._load_base`, src/main.py lines 45-60) -/

/-- Result of `yaml.safe_load` on a front-matter block: a string-valued mapping,
or any non-mapping value (None, scalar, list) on which `.get` would raise. -/
inductive YamlVal where
  | dict (kvs : List (String × String))
  | other
deriving DecidableEq

/-- The fields of an `AgentSkill` set by `_load_base`: `self.metadata` and
`self.instruction_body`. -/
structure LoadedSkill where
  metadata : YamlVal
  instruction_body : String
deriving DecidableEq

/-- The fixed fallback instruction body used when no manifest file exists. -/
def defaultInstruction : String := "This skill provides executable scripts."

/-- Embedding of `AgentSkill._load_base` (src/main.py lines 45-60).
`skillFileExists` is `self.skill_file.exists()`, `content` the file text,
`yamlLoad` the external `yaml.safe_load` (its exceptions are `yaml.YAMLError`,
not `ValueError`, so they escape the `except ValueError` handler), `dirName`
is `self.path.name`.  Fields start as `metadata = {}` (empty dict) and
`instruction_body = ""` and are only reassigned on the paths the source takes. -/
def load_base (skillFileExists : Bool) (content : String)
    (yamlLoad : String → PyResult YamlVal) (dirName : String) : PyResult LoadedSkill :=
  if skillFileExists = false then
    .ret ⟨.dict [("name", dirName)], defaultInstruction⟩
  else if pyStartsWith content ("---") then
    match pySplit content ("---") 2 with
    | [_, frontmatter, body] =>
      match yamlLoad frontmatter with
      | .exc e => .exc e
      | .ret v => .ret ⟨v, pyStripWS body⟩
    | _ => .ret ⟨.dict [("name", dirName)], content⟩
  else
    .ret ⟨.dict [], ""⟩

/-- Python `dict.get(k, default)` on a string-keyed association list. -/
def lookupKV (kvs : List (String × String)) (k : String) : Option String :=
  (kvs.find? (fun p => p.1 == k)).map (fun p => p.2)

/-- Embedding of the `AgentSkill.name` property (src/main.py line 63):
`self.metadata.get("name", self.path.name)`.  When `metadata` is not a dict
(e.g. `yaml.safe_load` returned None or a scalar), `.get` raises
`AttributeError`. -/
def skillName (s : LoadedSkill) (dirName : String) : PyResult String :=
  match s.metadata with
  | .dict kvs => .ret ((lookupKV kvs ("name")).getD dirName)
  | .other => .exc "AttributeError"

/-- One immediate subdirectory of the skills root, as seen by discovery:
its directory name plus the state of its `SKILL.md` manifest. -/
structure DirSpec where
  dirName : String
  skillFileExists : Bool
  content : String
deriving DecidableEq

/-- Python dict assignment `m[k] = v` on an insertion-ordered association
list: replaces in place when the key exists, appends otherwise. -/
def dictInsert (m : List (String × LoadedSkill)) (k : String) (v : LoadedSkill) :
    List (String × LoadedSkill) :=
  if (m.find? (fun p => p.1 == k)).isSome then
    m.map (fun p => if p.1 == k then (k, v) else p)
  else m ++ [(k, v)]

/-- Worker for `SkillOrchestrator._discover_skills` (src/main.py lines 118-123):
loads each subdirectory in order and stores it under `skill.name`; any
exception raised while loading or reading the name propagates, abandoning the
remaining directories. -/
def discoverAux (yamlLoad : String → PyResult YamlVal) :
    List DirSpec → List (String × LoadedSkill) → PyResult (List (String × LoadedSkill))
  | [], acc => .ret acc
  | d :: rest, acc =>
    match load_base d.skillFileExists d.content yamlLoad d.dirName with
    | .exc e => .exc e
    | .ret sk =>
      match skillName sk d.dirName with
      | .exc e => .exc e
      | .ret n => discoverAux yamlLoad rest (dictInsert acc n sk)

/-- Embedding of `SkillOrchestrator._discover_skills` over the list of
immediate subdirectories of the skills root. -/
def discover (yamlLoad : String → PyResult YamlVal) (dirs : List DirSpec) :
    PyResult (List (String × LoadedSkill)) :=
  discoverAux yamlLoad dirs []

/-! ### Gemini retry policy (`GeminiBackend.send_message`, src/main.py lines 316-328) -/

/-- The rate-limit test from src/main.py line 323:
`"429" in str(e) or "RESOURCE_EXHAUSTED" in str(e)`. -/
def isRateLimit (e : String) : Bool := pyIn ("429") e || pyIn ("RESOURCE_EXHAUSTED") e

/-- The retry loop of `GeminiBackend.send_message`: `calls i` is the outcome of
the `(i+1)`-th provider call, the `Nat` arguments are the remaining attempts,
the next call index and the current delay.  Returns the list of sleeps
performed (in order) together with the outcome. -/
def geminiAttempts (calls : Nat → PyResult String) :
    Nat → Nat → Nat → List Nat × PyResult String
  | 0, _, _ => ([], .ret "Error: API Timeout.")
  | Nat.succ n, i, delay =>
    match calls i with
    | .ret t => ([], .ret t)
    | .exc e =>
      if isRateLimit e then
        let r := geminiAttempts calls n (i + 1) (delay * 2)
        (delay :: r.1, r.2)
      else ([], .exc e)

/-- Embedding of `GeminiBackend.send_message` (src/main.py lines 316-328):
`max_retries = 3`, starting delay 5. -/
def send_message_gemini (calls : Nat → PyResult String) : List Nat × PyResult String :=
  geminiAttempts calls 3 0 5

/-! ### Tool dispatch (`FUNCTION_MAP`, src/main.py lines 239-252) -/

/-- The two local capabilities every tool name resolves to. -/
inductive Capability where
  | executeScript
  | readFile
deriving DecidableEq

/-- Embedding of `FUNCTION_MAP` (src/main.py lines 239-252): the fixed mapping
from external tool-call names to the two capabilities. -/
def FUNCTION_MAP : List (String × Capability) :=
  [("execute_script", .executeScript),
   ("read_file", .readFile),
   ("read_resource", .readFile),
   ("run_code", .executeScript),
   ("bash", .executeScript),
   ("computer", .executeScript),
   ("python", .executeScript),
   ("repl", .executeScript),
   ("view", .readFile),
   ("open", .readFile)]

/-- Python `name in FUNCTION_MAP` / `FUNCTION_MAP[name]` as one lookup. -/
def lookupFn (name : String) : Option Capability :=
  (FUNCTION_MAP.find? (fun p => p.1 == name)).map (fun p => p.2)

/-- The unknown-tool result string built at src/main.py line 371. -/
def unknownToolMsg (name : String) : String :=
  "Error: Tool \x27" ++ name ++ "\x27 not found. Use \x27read_file\x27 or \x27execute_script\x27."

/-! ### DeepSeek explicit tool loop (`DeepSeekBackend`, src/main.py lines 334-381) -/

/-- One tool call produced by the provider. -/
structure ToolCall where
  id : String
  name : String
  arguments : String
deriving DecidableEq

/-- One assistant message returned by a completion: its tool calls (possibly
empty) and its text content. -/
structure RespMsg where
  tool_calls : List ToolCall
  content : String
deriving DecidableEq

/-- One entry of `DeepSeekBackend.history`. -/
inductive Msg where
  | system (content : String)
  | user (content : String)
  | assistant (m : RespMsg)
  | tool (tool_call_id : String) (name : String) (content : String)
deriving DecidableEq

/-- The decoded keyword arguments produced by `json.loads` on a tool call's
argument text. -/
def Args : Type := List (String × String)

/-- Decoding plus dispatch of one tool call inside the DeepSeek loop
(src/main.py lines 362-371): `json.loads` first (its failure raises), then the
`FUNCTION_MAP` lookup; a known name runs the capability (`runCap` models
`FUNCTION_MAP[name](**args)`, whose exceptions also raise), an unknown name
yields the textual unknown-tool result. -/
def dispatchCall (decode : String → PyResult Args)
    (runCap : Capability → Args → PyResult String) (tc : ToolCall) : PyResult String :=
  match decode tc.arguments with
  | .exc e => .exc e
  | .ret args =>
    match lookupFn tc.name with
    | some cap => runCap cap args
    | none => .ret (unknownToolMsg tc.name)

/-- The `for tc in msg.tool_calls` loop (src/main.py lines 361-376): appends one
tool message per call; a raised exception stops the loop immediately, keeping
the messages appended so far. -/
def processCalls (decode : String → PyResult Args)
    (runCap : Capability → Args → PyResult String) :
    List ToolCall → List Msg → List Msg × Option String
  | [], hist => (hist, none)
  | tc :: rest, hist =>
    match dispatchCall decode runCap tc with
    | .exc e => (hist, some e)
    | .ret content =>
      processCalls decode runCap rest (hist ++ [Msg.tool tc.id tc.name content])

/-- The `while True` completion loop of `DeepSeekBackend.send_message`
(src/main.py lines 352-381), before the surrounding `except` clause: `complete i`
is the outcome of the `(i+1)`-th `chat.completions.create` call, `fuel` bounds
the number of iterations (the source loop is unbounded; `none` models
non-termination within the given fuel).  An `exc` outcome carries a raised
exception together with the history as mutated so far. -/
def dsSendLoop (complete : Nat → PyResult RespMsg) (decode : String → PyResult Args)
    (runCap : Capability → Args → PyResult String) :
    Nat → Nat → List Msg → Option (List Msg × PyResult String)
  | 0, _, _ => none
  | Nat.succ fuel, i, hist =>
    match complete i with
    | .exc e => some (hist, .exc e)
    | .ret msg =>
      match msg.tool_calls with
      | [] => some (hist ++ [Msg.assistant msg], .ret msg.content)
      | _ :: _ =>
        match processCalls decode runCap msg.tool_calls (hist ++ [Msg.assistant msg]) with
        | (h, some e) => some (h, .exc e)
        | (h, none) => dsSendLoop complete decode runCap fuel (i + 1) h

/-- Embedding of `DeepSeekBackend.send_message` (src/main.py lines 350-381):
appends the user message, runs the loop, and the blanket
`except Exception as e: return f"DeepSeek API Error: {e}"` turns every raised
exception into a normal return of the error text (history keeps whatever was
appended before the exception). -/
def send_message_deepseek (complete : Nat → PyResult RespMsg)
    (decode : String → PyResult Args) (runCap : Capability → Args → PyResult String)
    (fuel : Nat) (hist : List Msg) (user_input : String) :
    Option (List Msg × PyResult String) :=
  match dsSendLoop complete decode runCap fuel 0 (hist ++ [Msg.user user_input]) with
  | some (h, PyResult.exc e) => some (h, PyResult.ret ("DeepSeek API Error: " ++ e))
  | r => r

/-- Embedding of `DeepSeekBackend.inject_system_message` (src/main.py
lines 347-348). -/
def inject_system_message_deepseek (hist : List Msg) (content : String) : List Msg :=
  hist ++ [Msg.system content]

/-- Scanner for the tool-message adjacency invariant: the first argument is the
list of tool calls still awaiting their tool replies.  An assistant message
opens a block of pending calls; each pending call must be answered immediately
by a tool message with the matching id and name; a tool message outside a
block, or a block left unanswered, fails the scan. -/
def shapeLoop : List ToolCall → List Msg → Bool
  | [], [] => true
  | [], Msg.assistant m :: rest => shapeLoop m.tool_calls rest
  | [], Msg.tool _ _ _ :: _ => false
  | [], Msg.system _ :: rest => shapeLoop [] rest
  | [], Msg.user _ :: rest => shapeLoop [] rest
  | _ :: _, [] => false
  | tc :: cs, Msg.tool i n _ :: rest => (i == tc.id && n == tc.name) && shapeLoop cs rest
  | _ :: _, Msg.assistant _ :: _ => false
  | _ :: _, Msg.system _ :: _ => false
  | _ :: _, Msg.user _ :: _ => false

/-- The C4 invariant on a history: every tool message immediately follows the
assistant message whose tool call it answers (ids and names matching, in call
order), and no assistant tool-call message lacks its replies. -/
def toolShape (h : List Msg) : Bool := shapeLoop [] h

/-! ### Local tools (`execute_script` and `read_file`, src/main.py lines 187-236) -/

/-- The `self.path` of the active skill, as an absolute path string. -/
structure SkillRef where
  path : String
deriving DecidableEq

/-- Captured output of a completed subprocess. -/
structure RunResult where
  stdout : String
  stderr : String
deriving DecidableEq

/-- The script-not-found result built at src/main.py line 227. -/
def scriptNotFoundMsg (clean : String) : String :=
  "Error: Script \x27" ++ clean ++
    "\x27 not found. If you want to read a file, use the \x27read_file\x27 tool instead."

/-- Embedding of `execute_script` (src/main.py lines 214-236).  `active` is
`orchestrator.active_skill`, `fsExists` the filesystem existence test, and
`runScript path args` models `shlex.split` plus `subprocess.run` on the
resolved script path — its `exc` covers every launch failure (shlex error,
missing interpreter, `TimeoutExpired` after 60 seconds, OS error), all caught
by the `except Exception as e: return str(e)` clause. -/
def execute_script (active : Option SkillRef) (script_name arguments : String)
    (fsExists : String → Bool) (runScript : String → String → PyResult RunResult) : String :=
  match active with
  | none => "Error: No skill active."
  | some skill =>
    let clean := pyBasename script_name
    let script_path := skill.path ++ "/scripts/" ++ clean
    if fsExists script_path = false then
      scriptNotFoundMsg clean
    else
      match runScript script_path arguments with
      | .exc e => e
      | .ret r =>
        "STDOUT:\n" ++ r.stdout ++
          (if r.stderr ≠ "" then "\nSTDERR:\n" ++ r.stderr else "")

/-- The argument cleanup at src/main.py line 192:
`file_path.strip().strip(chr(34)).strip(chr(39))`. -/
def pyStripArg (file_path : String) : String :=
  stripChars (fun c => c == '\x27')
    (stripChars (fun c => c == '\x22') (pyStripWS file_path))

/-- Embedding of `read_file` (src/main.py lines 187-212).  `resolve` models
`Path(fp).resolve()` against the working directory, `fsExists` the existence
test, and `dispatchRead` the whole suffix-dispatched parser body of the `try`
block (its exceptions are caught and rendered as a `Read Error` string). -/
def read_file (file_path : String) (resolve : String → String)
    (fsExists : String → Bool) (dispatchRead : String → PyResult String) : String :=
  let fp := pyStripArg file_path
  let path_obj := resolve fp
  if fsExists path_obj = false then
    "Error: File not found: " ++ fp
  else
    match dispatchRead path_obj with
    | .ret t => t
    | .exc e => "Read Error: " ++ e

/-! ### Context assembly (`AgentSkill.get_file_tree` / `get_full_context`,
src/main.py lines 68-109) -/

/-- One `(root, dirs, files)` triple yielded by `os.walk` over the skill
directory, with `parts` the components of the root relative to the skill path
(empty for the skill directory itself). -/
structure WalkEntry where
  parts : List String
  files : List String
deriving DecidableEq

/-- Embedding of `AgentSkill.get_file_tree` (src/main.py lines 68-80), over the
`os.walk` output: indentation encodes depth, directory lines end in a slash,
files named `SKILL.md` are skipped. -/
def get_file_tree (walk : List WalkEntry) : String :=
  String.intercalate "\n"
    (walk.flatMap (fun e =>
      let level := e.parts.length
      let dirLines :=
        match e.parts.reverse with
        | [] => []
        | last :: _ => [repeatStr ("  ") level ++ "📂 " ++ last ++ "/"]
      dirLines ++
        (e.files.filter (fun f => f ≠ "SKILL.md")).map
          (fun f => repeatStr ("  ") (level + 1) ++ "📄 " ++ f)))

/-- The title line of the assembled context (src/main.py line 84). -/
def titleLine (name : String) : String := "# Active Skill Protocol: " ++ pyUpper name

/-- Heading of the instructions section (src/main.py line 85). -/
def sopHeading : String := "## 1. Primary Instructions (SOP)"

/-- Heading of the knowledge section (src/main.py line 96). -/
def knHeading : String := "\n## 2. Knowledge & References"

/-- Heading of the file-tree section (src/main.py line 100). -/
def mapHeading : String := "\n## 3. Project Structure (Map)"

/-- Heading of the scripts section (src/main.py line 106). -/
def scrHeading : String := "\n## 4. Available Tools (Scripts)"

/-- One knowledge entry (src/main.py line 94): the auxiliary markdown file at
relative path `rel` with text `content`, under its relative-path heading. -/
def mdPart (rel content : String) : String := "\n### File: " ++ rel ++ "\n" ++ content

/-- The fenced file-tree block (src/main.py line 101). -/
def mapBlock (walk : List WalkEntry) : String := "```text\n" ++ get_file_tree walk ++ "\n```"

/-- The `parts` list built by `AgentSkill.get_full_context` (src/main.py
lines 82-107), mirroring the source's successive appends: `mds` is the
`rglob("*.md")` result (relative path, text) with `SKILL.md` already excluded,
`walk` the `os.walk` output, `scripts` the names from `glob("scripts/*.py")`. -/
def contextParts (name body : String) (mds : List (String × String))
    (walk : List WalkEntry) (scripts : List String) : List String :=
  let parts := [titleLine name, sopHeading, body]
  let parts := parts ++
    (if mds.isEmpty then [] else knHeading :: mds.map (fun rc => mdPart rc.1 rc.2))
  let parts := parts ++ [mapHeading, mapBlock walk]
  parts ++ (if scripts.isEmpty then [] else scrHeading :: scripts.map (fun s => "- " ++ s))

/-- Embedding of `AgentSkill.get_full_context` (src/main.py lines 82-109). -/
def get_full_context (name body : String) (mds : List (String × String))
    (walk : List WalkEntry) (scripts : List String) : String :=
  String.intercalate "\n\n" (contextParts name body mds walk scripts)

/-! ### Interactive loop routing (`main`, src/main.py lines 423-448) -/

/-- The routing state of the interactive loop: the registered skill names in
insertion order and the active skill name, if any. -/
structure RouterState where
  names : List String
  active : Option String
deriving DecidableEq

/-- The activation scan of src/main.py lines 429-439: the first registered
name occurring as a substring of the lowercased user input. -/
def routerActivate (names : List String) (user_input : String) : Option String :=
  names.find? (fun n => pyIn n (pyLower user_input))

/-- The router of src/main.py lines 428-439: only when no skill is active is
the activation scan run; the first match becomes the active skill. -/
def routerStep (st : RouterState) (user_input : String) : RouterState :=
  match st.active with
  | some _ => st
  | none =>
    match routerActivate st.names user_input with
    | some n => RouterState.mk st.names (some n)
    | none => st

/-- What one iteration of the main loop does with the backend response
(src/main.py lines 441-448): displays the returned text, or reports a raised
error to the user. -/
inductive MainAction where
  | displayed (text : String)
  | reportedError (e : String)
deriving DecidableEq

/-- Whether one iteration of the main loop breaks out or continues to the next
user input. -/
inductive LoopOutcome where
  | exit
  | cont (action : MainAction)
deriving DecidableEq

/-- One iteration of the `while True` loop of `main` (src/main.py
lines 423-448): the exit-token check, the router, then the backend call whose
raised exception is caught, reported, and does not terminate the loop. -/
def mainLoopIteration (st : RouterState) (user_input : String)
    (send : String → PyResult String) : LoopOutcome × RouterState :=
  if pyLower user_input == "q" || pyLower user_input == "exit" then
    (LoopOutcome.exit, st)
  else
    let st2 := routerStep st user_input
    match send user_input with
    | .ret t => (LoopOutcome.cont (MainAction.displayed t), st2)
    | .exc e => (LoopOutcome.cont (MainAction.reportedError e), st2)

/-! ## Helper lemmas -/

theorem strContains_middle (p mid s : String) : strContains (p ++ mid ++ s) mid :=
  ⟨p, s, rfl⟩

theorem mem_of_strContains {hay needle : String} (h : strContains hay needle)
    {c : Char} (hc : c ∈ needle.data) : c ∈ hay.data := by
  obtain ⟨a, b, rfl⟩ := h
  rw [String.data_append, String.data_append]
  exact List.mem_append.mpr (Or.inl (List.mem_append.mpr (Or.inr hc)))

theorem mem_of_isPrefixOf {c : Char} :
    ∀ {n h : List Char}, n.isPrefixOf h = true → c ∈ n → c ∈ h := by
  intro n
  induction n with
  | nil => intro h _ hc; cases hc
  | cons a as ih =>
    intro h hp hc
    cases h with
    | nil => simp [List.isPrefixOf] at hp
    | cons b bs =>
      simp only [List.isPrefixOf, Bool.and_eq_true, beq_iff_eq] at hp
      rcases List.mem_cons.mp hc with rfl | hmem
      · exact List.mem_cons.mpr (Or.inl hp.1)
      · exact List.mem_cons.mpr (Or.inr (ih hp.2 hmem))

theorem mem_of_inAux {c : Char} {n : List Char} :
    ∀ {h : List Char}, inAux n h = true → c ∈ n → c ∈ h := by
  intro h
  induction h with
  | nil =>
    intro hin hc
    simp only [inAux, List.isEmpty_iff] at hin
    subst hin; cases hc
  | cons b bs ih =>
    intro hin hc
    simp only [inAux, Bool.or_eq_true] at hin
    rcases hin with hp | ht
    · exact mem_of_isPrefixOf hp hc
    · exact List.mem_cons.mpr (Or.inr (ih ht hc))

theorem asciiLowerChar_not_upper (c : Char) : isUpperAscii (asciiLowerChar c) = false := by
  unfold asciiLowerChar
  split
  · rename_i h
    simp only [isUpperAscii, decide_eq_false_iff_not]
    intro hcon
    have : (Char.mk ⟨⟨⟨c.toNat + 32, by omega⟩⟩⟩
        (Or.inl (by simp [UInt32.toNat, BitVec.toNat]; omega))).toNat = c.toNat + 32 := rfl
    omega
  · rename_i h
    simp only [isUpperAscii, decide_eq_false_iff_not]
    intro hcon
    exact h hcon

theorem pyIn_lower_false {k s : String} (hk : hasUpper k = true) :
    pyIn k (pyLower s) = false := by
  by_contra hcon
  rw [Bool.not_eq_false] at hcon
  obtain ⟨c, hmem, hup⟩ := by simpa using List.any_eq_true.mp hk
  have hc : c ∈ (pyLower s).data := mem_of_inAux hcon hmem
  simp only [pyLower, List.mem_map] at hc
  obtain ⟨c0, _, rfl⟩ := hc
  rw [asciiLowerChar_not_upper c0] at hup
  cases hup

/-! ## C1: manifest fallback behaviour -/

/-- C1 counterexample: the claim is false on the code.  A manifest whose
content is `"---abc"` (a leading delimiter with no second one) makes the
three-way split fail, and the `except ValueError` branch keeps the whole
original content as the instruction body instead of the fixed default string.
Moreover a front matter on which `yaml.safe_load` raises (a `yaml.YAMLError`,
not a `ValueError`) makes discovery itself raise, so the remaining directories
(here `"good"`) are never discovered. -/
theorem load_base_counterexample :
    load_base true ("---abc") (fun _ => .ret (.dict [])) ("skill1")
        = .ret ⟨.dict [("name", "skill1")], "---abc"⟩
      ∧ ("---abc" : String) ≠ defaultInstruction
      ∧ discover (fun _ => .exc "YAMLError")
          [⟨"bad", true, "---\nname: x\n---\nbody"⟩, ⟨"good", false, ""⟩]
          = .exc "YAMLError" := by
  refine ⟨by decide, by decide, by decide⟩

/-- C1 (amended): the fallback record `{name: directoryName}` with the default
instruction body is produced exactly when the manifest file is absent.  When
the manifest exists but does not start with the delimiter, metadata stays the
empty dict and the body stays empty; when the delimited split does not yield
three parts, the fallback metadata is used but the body is the whole original
content; when the structured front matter fails to parse, the exception
propagates out of `_load_base`, and discovery of the remaining skill
directories is abandoned. -/
theorem load_base_fallback :
    (∀ content yamlLoad d,
        load_base false content yamlLoad d
          = .ret ⟨.dict [("name", d)], defaultInstruction⟩)
      ∧ (∀ content yamlLoad d, pyStartsWith content ("---") = false →
          load_base true content yamlLoad d = .ret ⟨.dict [], ""⟩)
      ∧ (∀ content yamlLoad d, pyStartsWith content ("---") = true →
          (pySplit content ("---") 2).length ≠ 3 →
          load_base true content yamlLoad d = .ret ⟨.dict [("name", d)], content⟩)
      ∧ (∀ content yamlLoad d a fm b e, pyStartsWith content ("---") = true →
          pySplit content ("---") 2 = [a, fm, b] → yamlLoad fm = .exc e →
          load_base true content yamlLoad d = .exc e)
      ∧ (∀ yamlLoad d rest e,
          load_base d.skillFileExists d.content yamlLoad d.dirName = .exc e →
          discover yamlLoad (d :: rest) = .exc e) := by
  refine ⟨?_, ?_, ?_, ?_, ?_⟩
  · intro content yamlLoad d
    simp [load_base]
  · intro content yamlLoad d h
    simp [load_base, h]
  · intro content yamlLoad d h1 h2
    rcases hl : pySplit content ("---") 2 with _ | ⟨a, _ | ⟨b, _ | ⟨c, rest⟩⟩⟩
    · simp [load_base, h1, hl]
    · simp [load_base, h1, hl]
    · simp [load_base, h1, hl]
    · cases rest with
      | nil => rw [hl] at h2; simp at h2
      | cons d4 rest4 => simp [load_base, h1, hl]
  · intro content yamlLoad d a fm b e h1 h2 h3
    simp [load_base, h1, h2, h3]
  · intro yamlLoad d rest e h
    simp [discover, discoverAux, h]

/-- C1 witness: the amended theorem evaluated on concrete directories. -/
theorem load_base_fallback_witness :
    load_base false ("anything") (fun _ => .ret .other) ("dir")
        = .ret ⟨.dict [("name", "dir")], defaultInstruction⟩
      ∧ load_base true ("no delimiters here") (fun _ => .ret .other) ("dir")
          = .ret ⟨.dict [], ""⟩
      ∧ load_base true ("---only one") (fun _ => .ret .other) ("dir")
          = .ret ⟨.dict [("name", "dir")], "---only one"⟩
      ∧ load_base true ("---a---b") (fun _ => .exc "boom") ("dir") = .exc "boom"
      ∧ discover (fun _ => .exc "boom") [⟨"dir", true, "---a---b"⟩] = .exc "boom" :=
  ⟨load_base_fallback.1 _ _ _,
   load_base_fallback.2.1 _ _ _ (by decide),
   load_base_fallback.2.2.1 _ _ _ (by decide) (by decide),
   load_base_fallback.2.2.2.1 _ _ ("dir") "" "a" "b" _ (by decide) (by decide) rfl,
   load_base_fallback.2.2.2.2 _ ⟨"dir", true, "---a---b"⟩ [] _
     (load_base_fallback.2.2.2.1 _ _ ("dir") "" "a" "b" _ (by decide) (by decide) rfl)⟩

/-! ## C2: Gemini retry policy -/

theorem geminiAttempts_succ (calls : Nat → PyResult String) (n i delay : Nat) :
    geminiAttempts calls (n + 1) i delay =
      match calls i with
      | .ret t => ([], .ret t)
      | .exc e =>
        if isRateLimit e then
          (delay :: (geminiAttempts calls n (i + 1) (delay * 2)).1,
            (geminiAttempts calls n (i + 1) (delay * 2)).2)
        else ([], .exc e) := rfl

/-- C2: the retry wrapper retries only on a rate-limit signal, doubling the
delay from 5, with at most 3 attempts.  Two rate-limited failures followed by
success perform exactly the sleeps [5, 10] and return the success value; three
consecutive rate-limited failures return the sentinel timeout message (the
hypotheses say nothing about `calls 3`, so no fourth attempt is consulted); a
non-rate-limit failure propagates immediately with no sleep. -/
theorem gemini_retry_policy :
    (∀ calls e1 e2 v, calls 0 = .exc e1 → isRateLimit e1 = true →
        calls 1 = .exc e2 → isRateLimit e2 = true → calls 2 = .ret v →
        send_message_gemini calls = ([5, 10], .ret v))
      ∧ (∀ calls e1 e2 e3, calls 0 = .exc e1 → isRateLimit e1 = true →
          calls 1 = .exc e2 → isRateLimit e2 = true →
          calls 2 = .exc e3 → isRateLimit e3 = true →
          send_message_gemini calls = ([5, 10, 20], .ret "Error: API Timeout."))
      ∧ (∀ calls e, calls 0 = .exc e → isRateLimit e = false →
          send_message_gemini calls = ([], .exc e)) := by
  refine ⟨?_, ?_, ?_⟩
  · intro calls e1 e2 v h0 hr1 h1 hr2 h2
    unfold send_message_gemini
    rw [show (3 : Nat) = 2 + 1 from rfl, geminiAttempts_succ, h0]
    simp only [hr1, if_true]
    rw [geminiAttempts_succ, h1]
    simp only [hr2, if_true]
    rw [geminiAttempts_succ, h2]
  · intro calls e1 e2 e3 h0 hr1 h1 hr2 h2 hr3
    unfold send_message_gemini
    rw [show (3 : Nat) = 2 + 1 from rfl, geminiAttempts_succ, h0]
    simp only [hr1, if_true]
    rw [geminiAttempts_succ, h1]
    simp only [hr2, if_true]
    rw [geminiAttempts_succ, h2]
    simp only [hr3, if_true]
    rfl
  · intro calls e h0 hr
    unfold send_message_gemini
    rw [show (3 : Nat) = 2 + 1 from rfl, geminiAttempts_succ, h0]
    simp [hr]

/-- C2 witness: the retry policy evaluated on three concrete call sequences. -/
theorem gemini_retry_policy_witness :
    send_message_gemini
        (fun i => if i = 0 then .exc "429 quota" else
          if i = 1 then .exc "RESOURCE_EXHAUSTED" else .ret "ok")
        = ([5, 10], .ret "ok")
      ∧ send_message_gemini (fun _ => .exc "code 429") = ([5, 10, 20], .ret "Error: API Timeout.")
      ∧ send_message_gemini (fun _ => .exc "401 unauthorized") = ([], .exc "401 unauthorized") :=
  ⟨gemini_retry_policy.1 _ "429 quota" "RESOURCE_EXHAUSTED" "ok" rfl (by decide) rfl (by decide) rfl,
   gemini_retry_policy.2.1 _ "code 429" "code 429" "code 429" rfl (by decide) rfl (by decide) rfl
     (by decide),
   gemini_retry_policy.2.2 _ "401 unauthorized" rfl (by decide)⟩

/-! ## DeepSeek loop lemmas -/

theorem dsSendLoop_succ (complete : Nat → PyResult RespMsg) (decode : String → PyResult Args)
    (runCap : Capability → Args → PyResult String) (fuel i : Nat) (hist : List Msg) :
    dsSendLoop complete decode runCap (fuel + 1) i hist =
      match complete i with
      | .exc e => some (hist, .exc e)
      | .ret msg =>
        match msg.tool_calls with
        | [] => some (hist ++ [Msg.assistant msg], .ret msg.content)
        | _ :: _ =>
          match processCalls decode runCap msg.tool_calls (hist ++ [Msg.assistant msg]) with
          | (h, some e) => some (h, .exc e)
          | (h, none) => dsSendLoop complete decode runCap fuel (i + 1) h := rfl

theorem processCalls_extends (decode : String → PyResult Args)
    (runCap : Capability → Args → PyResult String) :
    ∀ (cs : List ToolCall) (hist : List Msg),
      ∃ tms o, processCalls decode runCap cs hist = (hist ++ tms, o) := by
  intro cs
  induction cs with
  | nil => intro hist; exact ⟨[], none, by simp [processCalls]⟩
  | cons tc rest ih =>
    intro hist
    cases hd : dispatchCall decode runCap tc with
    | exc e => exact ⟨[], some e, by simp [processCalls, hd]⟩
    | ret content =>
      obtain ⟨tms, o, h⟩ := ih (hist ++ [Msg.tool tc.id tc.name content])
      exact ⟨Msg.tool tc.id tc.name content :: tms, o, by simp [processCalls, hd, h]⟩

theorem processCalls_success (decode : String → PyResult Args)
    (runCap : Capability → Args → PyResult String)
    (hd : ∀ s, ∃ a, decode s = .ret a) (hr : ∀ cap a, ∃ r, runCap cap a = .ret r) :
    ∀ (cs : List ToolCall) (hist : List Msg),
      ∃ tms, processCalls decode runCap cs hist = (hist ++ tms, none)
        ∧ shapeLoop cs tms = true := by
  intro cs
  induction cs with
  | nil => intro hist; exact ⟨[], by simp [processCalls], by simp [shapeLoop]⟩
  | cons tc rest ih =>
    intro hist
    obtain ⟨a, ha⟩ := hd tc.arguments
    have hdisp : ∃ content, dispatchCall decode runCap tc = .ret content := by
      unfold dispatchCall
      rw [ha]
      cases hl : lookupFn tc.name with
      | some cap => exact hr cap a
      | none => exact ⟨_, rfl⟩
    obtain ⟨content, hc⟩ := hdisp
    obtain ⟨tms, h1, h2⟩ := ih (hist ++ [Msg.tool tc.id tc.name content])
    refine ⟨Msg.tool tc.id tc.name content :: tms, ?_, ?_⟩
    · simp [processCalls, hc, h1]
    · simp [shapeLoop, h2]

theorem shapeLoop_append (ys : List Msg) :
    ∀ (xs : List Msg) (cs : List ToolCall), shapeLoop cs xs = true →
      shapeLoop cs (xs ++ ys) = shapeLoop [] ys := by
  intro xs
  induction xs with
  | nil =>
    intro cs h
    cases cs with
    | nil => simp
    | cons a t => simp [shapeLoop] at h
  | cons m rest ih =>
    intro cs h
    cases cs with
    | nil =>
      cases m with
      | system c => simpa [shapeLoop] using ih [] (by simpa [shapeLoop] using h)
      | user c => simpa [shapeLoop] using ih [] (by simpa [shapeLoop] using h)
      | assistant mm =>
        simp only [shapeLoop] at h
        simpa [shapeLoop] using ih mm.tool_calls h
      | tool i n c => simp [shapeLoop] at h
    | cons tc cs2 =>
      cases m with
      | system c => simp [shapeLoop] at h
      | user c => simp [shapeLoop] at h
      | assistant mm => simp [shapeLoop] at h
      | tool i n c =>
        simp only [shapeLoop, Bool.and_eq_true] at h
        simp only [List.cons_append, shapeLoop, Bool.and_eq_true, h.1, true_and]
        exact ih cs2 h.2

theorem dsSendLoop_extends (complete : Nat → PyResult RespMsg)
    (decode : String → PyResult Args) (runCap : Capability → Args → PyResult String) :
    ∀ (fuel i : Nat) (hist h : List Msg) (r : PyResult String),
      dsSendLoop complete decode runCap fuel i hist = some (h, r) →
      ∃ ext, h = hist ++ ext := by
  intro fuel
  induction fuel with
  | zero => intro i hist h r hstep; simp [dsSendLoop] at hstep
  | succ n ih =>
    intro i hist h r hstep
    rw [dsSendLoop_succ] at hstep
    cases hc : complete i with
    | exc e =>
      rw [hc] at hstep
      dsimp only at hstep
      simp only [Option.some_inj, Prod.mk.injEq] at hstep
      exact ⟨[], by simp [hstep.1.symm]⟩
    | ret msg =>
      rw [hc] at hstep
      dsimp only at hstep
      cases hm : msg.tool_calls with
      | nil =>
        rw [hm] at hstep
        dsimp only at hstep
        simp only [Option.some_inj, Prod.mk.injEq] at hstep
        exact ⟨[Msg.assistant msg], hstep.1.symm⟩
      | cons a t =>
        rw [hm] at hstep
        dsimp only at hstep
        obtain ⟨tms, o, hp⟩ := processCalls_extends decode runCap (a :: t)
          (hist ++ [Msg.assistant msg])
        rw [hp] at hstep
        cases o with
        | some e =>
          simp only [Option.some_inj, Prod.mk.injEq] at hstep
          exact ⟨Msg.assistant msg :: tms, by rw [← hstep.1]; simp⟩
        | none =>
          obtain ⟨ext, hext⟩ := ih (i + 1) _ h r hstep
          exact ⟨Msg.assistant msg :: tms ++ ext, by rw [hext]; simp⟩

theorem dsSendLoop_shape (complete : Nat → PyResult RespMsg)
    (decode : String → PyResult Args) (runCap : Capability → Args → PyResult String)
    (hd : ∀ s, ∃ a, decode s = .ret a) (hr : ∀ cap a, ∃ r, runCap cap a = .ret r) :
    ∀ (fuel i : Nat) (hist h : List Msg) (r : PyResult String),
      toolShape hist = true →
      dsSendLoop complete decode runCap fuel i hist = some (h, r) →
      toolShape h = true := by
  intro fuel
  induction fuel with
  | zero => intro i hist h r _ hstep; simp [dsSendLoop] at hstep
  | succ n ih =>
    intro i hist h r hshape hstep
    rw [dsSendLoop_succ] at hstep
    cases hc : complete i with
    | exc e =>
      rw [hc] at hstep
      dsimp only at hstep
      simp only [Option.some_inj, Prod.mk.injEq] at hstep
      rw [← hstep.1]
      exact hshape
    | ret msg =>
      rw [hc] at hstep
      dsimp only at hstep
      cases hm : msg.tool_calls with
      | nil =>
        rw [hm] at hstep
        dsimp only at hstep
        simp only [Option.some_inj, Prod.mk.injEq] at hstep
        rw [← hstep.1]
        unfold toolShape
        rw [shapeLoop_append _ hist [] hshape]
        simp [shapeLoop, hm]
      | cons a t =>
        rw [hm] at hstep
        dsimp only at hstep
        obtain ⟨tms, hp, hsh⟩ := processCalls_success decode runCap hd hr (a :: t)
          (hist ++ [Msg.assistant msg])
        rw [hp] at hstep
        dsimp only at hstep
        have hshape2 : toolShape (hist ++ [Msg.assistant msg] ++ tms) = true := by
          unfold toolShape
          rw [List.append_assoc, shapeLoop_append _ hist [] hshape]
          simp only [List.cons_append, List.nil_append, shapeLoop, hm]
          exact hsh
        exact ih (i + 1) _ h r hshape2 hstep

theorem send_message_deepseek_loop (complete : Nat → PyResult RespMsg)
    (decode : String → PyResult Args) (runCap : Capability → Args → PyResult String)
    (fuel : Nat) (hist : List Msg) (u : String) (h : List Msg) (r : PyResult String)
    (hs : send_message_deepseek complete decode runCap fuel hist u = some (h, r)) :
    ∃ r2, dsSendLoop complete decode runCap fuel 0 (hist ++ [Msg.user u]) = some (h, r2) := by
  unfold send_message_deepseek at hs
  cases hl : dsSendLoop complete decode runCap fuel 0 (hist ++ [Msg.user u]) with
  | none => rw [hl] at hs; cases hs
  | some pr =>
    rw [hl] at hs
    rcases pr with ⟨h2, r2⟩
    cases r2 with
    | exc e =>
      simp only [Option.some_inj, Prod.mk.injEq] at hs
      exact ⟨_, by rw [hs.1]⟩
    | ret t =>
      simp only [Option.some_inj, Prod.mk.injEq] at hs
      exact ⟨_, by rw [hs.1]⟩

/-! ## C3: explicit tool loop, two calls then final answer -/

/-- C3: in the explicit tool-loop session, when the first completion returns
exactly two tool calls (each of which decodes and dispatches without raising)
and the second completion returns no tool calls, `send_message` appends, in
order: the user message, the assistant message carrying the two calls, one
tool message per call in call order (ids and names matching), and the final
assistant message — and returns exactly the final assistant's text. -/
theorem ds_two_tool_calls_history :
    ∀ complete decode runCap (fuel : Nat) (hist : List Msg) (u : String)
      (tc1 tc2 : ToolCall) (c0 final r1 r2 : String),
      2 ≤ fuel →
      complete 0 = .ret (RespMsg.mk [tc1, tc2] c0) →
      complete 1 = .ret (RespMsg.mk [] final) →
      dispatchCall decode runCap tc1 = .ret r1 →
      dispatchCall decode runCap tc2 = .ret r2 →
      send_message_deepseek complete decode runCap fuel hist u
        = some (hist ++ [Msg.user u, Msg.assistant (RespMsg.mk [tc1, tc2] c0),
            Msg.tool tc1.id tc1.name r1, Msg.tool tc2.id tc2.name r2,
            Msg.assistant (RespMsg.mk [] final)], .ret final) := by
  intro complete decode runCap fuel hist u tc1 tc2 c0 final r1 r2 hfuel h0 h1 hd1 hd2
  obtain ⟨k, rfl⟩ : ∃ k, fuel = k + 2 := ⟨fuel - 2, by omega⟩
  unfold send_message_deepseek
  rw [show k + 2 = k + 1 + 1 from rfl, dsSendLoop_succ, h0]
  dsimp only
  have hp : processCalls decode runCap [tc1, tc2]
      ((hist ++ [Msg.user u]) ++ [Msg.assistant (RespMsg.mk [tc1, tc2] c0)])
      = ((hist ++ [Msg.user u]) ++ [Msg.assistant (RespMsg.mk [tc1, tc2] c0)]
          ++ [Msg.tool tc1.id tc1.name r1] ++ [Msg.tool tc2.id tc2.name r2], none) := by
    simp [processCalls, hd1, hd2]
  rw [hp]
  dsimp only
  rw [dsSendLoop_succ, h1]
  dsimp only
  simp [List.append_assoc]

/-- C3 witness: a concrete two-call run — the first call hits `read_file`, the
second an unknown tool name — producing the expected five appended messages. -/
theorem ds_two_tool_calls_history_witness :
    send_message_deepseek
        (fun i => if i = 0 then
            .ret (RespMsg.mk [ToolCall.mk "c1" "read_file" "{}", ToolCall.mk "c2" "bad_tool" "{}"] "")
          else .ret (RespMsg.mk [] "done"))
        (fun _ => .ret []) (fun _ _ => .ret "file contents") 5 [] "hi"
      = some ([Msg.user "hi",
          Msg.assistant (RespMsg.mk [ToolCall.mk "c1" "read_file" "{}",
            ToolCall.mk "c2" "bad_tool" "{}"] ""),
          Msg.tool "c1" "read_file" "file contents",
          Msg.tool "c2" "bad_tool" (unknownToolMsg ("bad_tool")),
          Msg.assistant (RespMsg.mk [] "done")], .ret "done") := by
  have h := ds_two_tool_calls_history
    (fun i => if i = 0 then
        .ret (RespMsg.mk [ToolCall.mk "c1" "read_file" "{}", ToolCall.mk "c2" "bad_tool" "{}"] "")
      else .ret (RespMsg.mk [] "done"))
    (fun _ => .ret []) (fun _ _ => .ret "file contents") 5 []
    "hi" (ToolCall.mk "c1" "read_file" "{}") (ToolCall.mk "c2" "bad_tool" "{}")
    "" "done" "file contents" (unknownToolMsg ("bad_tool"))
    (by omega) rfl rfl (by decide) (by decide)
  simpa using h

/-! ## C4: history invariants of the explicit tool loop -/

/-- C4 counterexample: the claim is false on the code.  With one tool call
whose arguments fail to decode (`json.loads` raises), `send_message` returns
the `DeepSeek API Error` text and leaves the assistant tool-call message
dangling in the history with no tool message answering it, so the adjacency
invariant fails after this `send_message` call. -/
theorem ds_history_invariant_counterexample :
    send_message_deepseek
        (fun i => if i = 0 then
            .ret (RespMsg.mk [ToolCall.mk "id1" "read_file" "not json"] "") else
          .ret (RespMsg.mk [] "done"))
        (fun _ => .exc "JSONDecodeError") (fun _ _ => .ret "ok") 5 [] "hi"
      = some ([Msg.user "hi",
          Msg.assistant (RespMsg.mk [ToolCall.mk "id1" "read_file" "not json"] "")],
          .ret "DeepSeek API Error: JSONDecodeError")
    ∧ toolShape [Msg.user "hi",
        Msg.assistant (RespMsg.mk [ToolCall.mk "id1" "read_file" "not json"] "")] = false := by
  exact ⟨by decide, by decide⟩

/-- C4 (amended): the explicit tool-loop history is append-only — every
`send_message` outcome extends the prior history, starting with the user
message, and `inject_system_message` appends one system entry.  The adjacency
invariant (every tool message immediately follows the assistant message whose
call it answers, with matching ids, and no assistant tool-call message lacks
its replies) is preserved by `send_message` provided no tool-call argument
decode failure and no dispatched-tool exception occurs; when such a failure
occurs mid-batch the assistant tool-call message can be left unanswered (see
the counterexample). -/
theorem ds_history_invariants :
    (∀ complete decode runCap (fuel : Nat) (hist : List Msg) (u : String)
        (h : List Msg) (r : PyResult String),
        send_message_deepseek complete decode runCap fuel hist u = some (h, r) →
        ∃ ext, h = hist ++ Msg.user u :: ext)
      ∧ (∀ (hist : List Msg) (c : String),
          inject_system_message_deepseek hist c = hist ++ [Msg.system c])
      ∧ (∀ complete decode runCap (fuel : Nat) (hist : List Msg) (u : String)
          (h : List Msg) (r : PyResult String),
          (∀ s, ∃ a, decode s = .ret a) →
          (∀ cap a, ∃ res, runCap cap a = .ret res) →
          toolShape hist = true →
          send_message_deepseek complete decode runCap fuel hist u = some (h, r) →
          toolShape h = true) := by
  refine ⟨?_, ?_, ?_⟩
  · intro complete decode runCap fuel hist u h r hs
    obtain ⟨r2, hl⟩ := send_message_deepseek_loop complete decode runCap fuel hist u h r hs
    obtain ⟨ext, hext⟩ := dsSendLoop_extends complete decode runCap fuel 0
      (hist ++ [Msg.user u]) h r2 hl
    exact ⟨ext, by rw [hext]; simp⟩
  · intro hist c; rfl
  · intro complete decode runCap fuel hist u h r hd hr hshape hs
    obtain ⟨r2, hl⟩ := send_message_deepseek_loop complete decode runCap fuel hist u h r hs
    have hshape2 : toolShape (hist ++ [Msg.user u]) = true := by
      unfold toolShape
      rw [shapeLoop_append _ hist [] hshape]
      simp [shapeLoop]
    exact dsSendLoop_shape complete decode runCap hd hr fuel 0
      (hist ++ [Msg.user u]) h r2 hshape2 hl

/-- C4 witness: the amended invariants evaluated on a concrete successful
two-step run. -/
theorem ds_history_invariants_witness :
    (∃ ext, [Msg.user "hi", Msg.assistant (RespMsg.mk [] "done")] = ([] : List Msg) ++ Msg.user "hi" :: ext)
      ∧ inject_system_message_deepseek [] "sys" = [Msg.system "sys"]
      ∧ toolShape [Msg.user "hi", Msg.assistant (RespMsg.mk [] "done")] = true := by
  refine ⟨?_, ds_history_invariants.2.1 [] "sys", ?_⟩
  · exact ds_history_invariants.1 (fun _ => .ret (RespMsg.mk [] "done"))
      (fun _ => .ret []) (fun _ _ => .ret "ok") 3 [] "hi" _ (.ret "done") (by decide)
  · exact ds_history_invariants.2.2 (fun _ => .ret (RespMsg.mk [] "done"))
      (fun _ => .ret []) (fun _ _ => .ret "ok") 3 [] "hi" _ (.ret "done")
      (fun s => ⟨[], rfl⟩) (fun cap a => ⟨"ok", rfl⟩) (by decide) (by decide)

/-! ## C5: provider fatal errors -/

/-- C5 counterexample: the claim is false on the code for the explicit
tool-loop variant.  A fatal (non-rate-limit) provider failure during the
DeepSeek `send_message` is caught by the blanket `except` and returned as a
normal string result — a `ret`, not an `exc` — so it never propagates to the
top-level loop. -/
theorem deepseek_fatal_not_propagated_counterexample :
    send_message_deepseek (fun _ => .exc "401 Unauthorized") (fun _ => .ret [])
        (fun _ _ => .ret "") 5 [] "hi"
      = some ([Msg.user "hi"], .ret "DeepSeek API Error: 401 Unauthorized")
    ∧ (PyResult.ret ("DeepSeek API Error: 401 Unauthorized") : PyResult String)
        ≠ PyResult.exc "401 Unauthorized" := by
  exact ⟨by decide, by decide⟩

/-- C5 (amended): in the provider-managed variant a non-rate-limit failure
propagates out of `send_message` unchanged and without any retry sleep, and
the top-level loop catches it, reports it to the user, and continues rather
than exiting; in the explicit tool-loop variant a fatal failure is caught
inside `send_message` itself and returned as a `"DeepSeek API Error: ..."`
text with the history keeping the appended user message. -/
theorem provider_fatal_error_handling :
    (∀ calls e, calls 0 = .exc e → isRateLimit e = false →
        send_message_gemini calls = ([], .exc e))
      ∧ (∀ (st : RouterState) (u e : String), pyLower u ≠ "q" → pyLower u ≠ "exit" →
          mainLoopIteration st u (fun _ => .exc e)
            = (LoopOutcome.cont (MainAction.reportedError e), routerStep st u))
      ∧ (∀ complete decode runCap (fuel : Nat) (hist : List Msg) (u e : String),
          1 ≤ fuel → complete 0 = .exc e →
          send_message_deepseek complete decode runCap fuel hist u
            = some (hist ++ [Msg.user u], .ret ("DeepSeek API Error: " ++ e))) := by
  refine ⟨?_, ?_, ?_⟩
  · intro calls e h0 hrl
    unfold send_message_gemini
    rw [show (3 : Nat) = 2 + 1 from rfl, geminiAttempts_succ, h0]
    simp [hrl]
  · intro st u e h1 h2
    unfold mainLoopIteration
    have hb1 : (pyLower u == "q") = false := beq_eq_false_iff_ne.mpr h1
    have hb2 : (pyLower u == "exit") = false := beq_eq_false_iff_ne.mpr h2
    rw [hb1, hb2]
    rfl
  · intro complete decode runCap fuel hist u e hfuel h0
    obtain ⟨k, rfl⟩ : ∃ k, fuel = k + 1 := ⟨fuel - 1, by omega⟩
    unfold send_message_deepseek
    rw [dsSendLoop_succ, h0]

/-- C5 witness: the amended behaviour at a concrete fatal error. -/
theorem provider_fatal_error_handling_witness :
    send_message_gemini (fun _ => .exc "401 bad key") = ([], .exc "401 bad key")
      ∧ mainLoopIteration (RouterState.mk [] none) "hello" (fun _ => .exc "401 bad key")
          = (LoopOutcome.cont (MainAction.reportedError "401 bad key"),
              routerStep (RouterState.mk [] none) "hello")
      ∧ send_message_deepseek (fun _ => .exc "401 bad key") (fun _ => .ret [])
          (fun _ _ => .ret "") 2 [] "hello"
          = some ([] ++ [Msg.user "hello"], .ret ("DeepSeek API Error: " ++ "401 bad key")) :=
  ⟨provider_fatal_error_handling.1 _ "401 bad key" rfl (by decide),
   provider_fatal_error_handling.2.1 _ "hello" "401 bad key" (by decide) (by decide),
   provider_fatal_error_handling.2.2 _ _ _ 2 [] "hello" "401 bad key" (by omega) rfl⟩

/-! ## C6: execute_script error contract -/

theorem scriptNotFoundMsg_decomp (clean : String) :
    scriptNotFoundMsg clean
      = ("Error: Script \x27" ++ clean ++ "\x27 not found. If you want to read a file, use the \x27")
          ++ "read_file" ++ "\x27 tool instead." := by
  apply String.ext
  simp [scriptNotFoundMsg, String.data_append]

/-- C6: the script dispatcher never propagates a fault.  With no active skill
it returns exactly the fixed error string, whatever the filesystem and process
oracles hold (so the filesystem is never consulted); with an active skill the
script is resolved by base name under that skill's `scripts/` directory, a
missing script yields the textual redirect naming `read_file` without raising,
and any launch failure (the launcher oracle raising `e`) is returned as the
text `str(e)`. -/
theorem execute_script_error_contract :
    (∀ script_name arguments fsExists runScript,
        execute_script none script_name arguments fsExists runScript
          = "Error: No skill active.")
      ∧ (∀ sp script_name arguments fsExists runScript,
          fsExists (sp ++ "/scripts/" ++ pyBasename script_name) = false →
          execute_script (some ⟨sp⟩) script_name arguments fsExists runScript
              = scriptNotFoundMsg (pyBasename script_name)
            ∧ strContains (scriptNotFoundMsg (pyBasename script_name)) ("read_file"))
      ∧ (∀ sp script_name arguments fsExists runScript e,
          fsExists (sp ++ "/scripts/" ++ pyBasename script_name) = true →
          runScript (sp ++ "/scripts/" ++ pyBasename script_name) arguments = .exc e →
          execute_script (some ⟨sp⟩) script_name arguments fsExists runScript = e) := by
  refine ⟨?_, ?_, ?_⟩
  · intro script_name arguments fsExists runScript
    rfl
  · intro sp script_name arguments fsExists runScript h
    refine ⟨by simp [execute_script, h], ?_⟩
    rw [scriptNotFoundMsg_decomp]
    exact strContains_middle _ _ _
  · intro sp script_name arguments fsExists runScript e h hr
    simp [execute_script, h, hr]

/-- C6 witness: the three branches at concrete inputs. -/
theorem execute_script_error_contract_witness :
    execute_script none "x.py" "" (fun _ => true) (fun _ _ => .ret ⟨"", ""⟩)
        = "Error: No skill active."
      ∧ execute_script (some ⟨"/s/demo"⟩) "../esc/x.py" "" (fun _ => false)
          (fun _ _ => .ret ⟨"", ""⟩) = scriptNotFoundMsg (pyBasename ("../esc/x.py"))
      ∧ execute_script (some ⟨"/s/demo"⟩) "x.py" "'" (fun _ => true)
          (fun _ _ => .exc "No closing quotation") = "No closing quotation" :=
  ⟨execute_script_error_contract.1 "x.py" "" _ _,
   (execute_script_error_contract.2.1 "/s/demo" "../esc/x.py" "" _ _ rfl).1,
   execute_script_error_contract.2.2 "/s/demo" "x.py" "'" _ _ "No closing quotation" rfl rfl⟩

/-! ## C7: alias resolution -/

theorem unknownToolMsg_decomp1 (name : String) :
    unknownToolMsg name
      = ("Error: Tool \x27" ++ name ++ "\x27 not found. Use \x27") ++ "read_file"
          ++ "\x27 or \x27execute_script\x27." := by
  apply String.ext
  simp [unknownToolMsg, String.data_append]

theorem unknownToolMsg_decomp2 (name : String) :
    unknownToolMsg name
      = ("Error: Tool \x27" ++ name ++ "\x27 not found. Use \x27read_file\x27 or \x27")
          ++ "execute_script" ++ "\x27." := by
  apply String.ext
  simp [unknownToolMsg, String.data_append]

/-- C7: every documented execution alias resolves to the same capability as
`execute_script`, every documented read alias to the same capability as
`read_file`, and dispatching a name outside the mapping (whose arguments
decode) produces the textual result that names both canonical tools. -/
theorem function_map_alias_resolution :
    (∀ a, a ∈ (["run_code", "bash", "computer", "python", "repl"] : List String) →
        lookupFn a = lookupFn ("execute_script")
          ∧ lookupFn a = some Capability.executeScript)
      ∧ (∀ a, a ∈ (["view", "open", "read_resource"] : List String) →
          lookupFn a = lookupFn ("read_file") ∧ lookupFn a = some Capability.readFile)
      ∧ (∀ decode runCap (tc : ToolCall) (args : Args),
          lookupFn tc.name = none → decode tc.arguments = .ret args →
          dispatchCall decode runCap tc = .ret (unknownToolMsg tc.name))
      ∧ (∀ name, strContains (unknownToolMsg name) ("read_file")
          ∧ strContains (unknownToolMsg name) ("execute_script")) := by
  refine ⟨?_, ?_, ?_, ?_⟩
  · intro a ha
    fin_cases ha <;> exact ⟨by decide, by decide⟩
  · intro a ha
    fin_cases ha <;> exact ⟨by decide, by decide⟩
  · intro decode runCap tc args h1 h2
    unfold dispatchCall
    rw [h2, h1]
  · intro name
    constructor
    · rw [unknownToolMsg_decomp1]; exact strContains_middle _ _ _
    · rw [unknownToolMsg_decomp2]; exact strContains_middle _ _ _

/-- C7 witness: a concrete alias, a concrete read alias, and a concrete
unknown tool name. -/
theorem function_map_alias_resolution_witness :
    lookupFn ("run_code") = some Capability.executeScript
      ∧ lookupFn ("view") = some Capability.readFile
      ∧ dispatchCall (fun _ => .ret []) (fun _ _ => .ret "")
          (ToolCall.mk "c9" "str_replace_editor" "{}")
          = .ret (unknownToolMsg ("str_replace_editor"))
      ∧ strContains (unknownToolMsg ("str_replace_editor")) ("read_file") :=
  ⟨(function_map_alias_resolution.1 "run_code" (by decide)).2,
   (function_map_alias_resolution.2.1 "view" (by decide)).2,
   function_map_alias_resolution.2.2.1 _ _ (ToolCall.mk "c9" "str_replace_editor" "{}") []
     (by decide) rfl,
   (function_map_alias_resolution.2.2.2 ("str_replace_editor")).1⟩

/-! ## C8: read_file on a missing path -/

/-- C8 counterexample: the claim is false on the code.  For the path argument
`"nofile"` written with surrounding double quotes, the stripped name is what
appears in the error message; the original argument (with its quote
characters) is not contained in the returned string. -/
theorem read_file_not_found_counterexample :
    read_file ("\x22nofile\x22") (fun p => p) (fun _ => false) (fun _ => .ret "")
        = "Error: File not found: nofile"
      ∧ ¬ strContains ("Error: File not found: nofile") ("\x22nofile\x22") := by
  refine ⟨by decide, ?_⟩
  intro hcon
  have hmem : '\x22' ∈ ("Error: File not found: nofile" : String).data :=
    mem_of_strContains hcon (by decide)
  revert hmem
  decide

/-- C8 (amended): for every path argument whose stripped form (surrounding
whitespace and quote characters removed) resolves to no existing file,
`read_file` returns a string that begins with `"Error: File not found"` and
contains the stripped path argument (not necessarily the original argument),
and it returns rather than raising. -/
theorem read_file_not_found :
    ∀ file_path resolve fsExists dispatchRead,
      fsExists (resolve (pyStripArg file_path)) = false →
      read_file file_path resolve fsExists dispatchRead
          = "Error: File not found: " ++ pyStripArg file_path
        ∧ strStartsWith (read_file file_path resolve fsExists dispatchRead)
            ("Error: File not found")
        ∧ strContains (read_file file_path resolve fsExists dispatchRead)
            (pyStripArg file_path) := by
  intro file_path resolve fsExists dispatchRead h
  have heq : read_file file_path resolve fsExists dispatchRead
      = "Error: File not found: " ++ pyStripArg file_path := by
    simp [read_file, h]
  refine ⟨heq, ?_, ?_⟩
  · exact ⟨": " ++ pyStripArg file_path, by rw [heq]; rfl⟩
  · refine ⟨"Error: File not found: ", "", ?_⟩
    rw [heq, String.append_empty]

/-- C8 witness: the amended statement at a concrete missing path. -/
theorem read_file_not_found_witness :
    read_file (" data.csv ") (fun p => p) (fun _ => false) (fun _ => .ret "")
        = "Error: File not found: " ++ pyStripArg (" data.csv ")
      ∧ strStartsWith (read_file (" data.csv ") (fun p => p) (fun _ => false) (fun _ => .ret ""))
          ("Error: File not found") :=
  ⟨(read_file_not_found " data.csv" (fun p => p) (fun _ => false) (fun _ => .ret "") rfl).1.trans
      (by decide),
   (read_file_not_found (" data.csv ") (fun p => p) (fun _ => false) (fun _ => .ret "") rfl).2.1⟩

/-! ## C9: context assembly -/

/-- C9 counterexample: the claim is false on the code.  For a skill directory
whose walk yields no files at all, the file tree is the empty string, yet the
assembled context still contains the Project Structure (Map) heading with an
empty fenced block — the empty map section is emitted, not omitted. -/
theorem context_empty_map_counterexample :
    get_file_tree [WalkEntry.mk [] []] = ""
      ∧ strContains (get_full_context ("x") ("b") [] [WalkEntry.mk [] []] []) mapHeading := by
  refine ⟨by decide, ⟨"# Active Skill Protocol: X\n\n## 1. Primary Instructions (SOP)\n\nb\n\n",
    "\n\n```text\n\n```", by decide⟩⟩

/-- C9 (amended): the assembled context is the double-newline join of, in this
fixed order: the title line naming the skill, the instructions heading, the
instruction body verbatim, the knowledge section (heading plus one entry per
auxiliary markdown file under its relative-path heading, in walk order)
omitted when there are no such files, the file-tree section (always emitted,
even when the tree is empty), and the scripts section omitted when no scripts
exist.  The file tree always excludes SKILL.md entries (filtering them from
the walk changes nothing). -/
theorem context_assembly_structure :
    ∀ (name body : String) (mds : List (String × String)) (walk : List WalkEntry)
      (scripts : List String),
      get_full_context name body mds walk scripts
          = String.intercalate "\n\n" (contextParts name body mds walk scripts)
        ∧ contextParts name body mds walk scripts
            = [titleLine name, sopHeading, body]
                ++ (if mds.isEmpty then [] else
                    knHeading :: mds.map (fun rc => mdPart rc.1 rc.2))
                ++ [mapHeading, mapBlock walk]
                ++ (if scripts.isEmpty then [] else
                    scrHeading :: scripts.map (fun s => "- " ++ s))
        ∧ mapHeading ∈ contextParts name body mds walk scripts
        ∧ (mds ≠ [] → knHeading ∈ contextParts name body mds walk scripts)
        ∧ (scripts ≠ [] → scrHeading ∈ contextParts name body mds walk scripts)
        ∧ get_file_tree walk
            = get_file_tree (walk.map (fun e =>
                WalkEntry.mk e.parts (e.files.filter (fun f => f ≠ "SKILL.md")))) := by
  intro name body mds walk scripts
  refine ⟨rfl, rfl, ?_, ?_, ?_, ?_⟩
  · simp [contextParts]
  · intro hm
    simp [contextParts, hm]
  · intro hs
    simp [contextParts, hs]
  · unfold get_file_tree
    congr 1
    rw [List.flatMap_map]
    congr 1
    funext e
    simp [List.filter_filter]

/-- C9 witness: the amended structure evaluated on a concrete skill with one
markdown file, one walk entry and one script. -/
theorem context_assembly_structure_witness :
    get_full_context ("demo") ("body") [("notes.md", "text")]
        [WalkEntry.mk [] ["SKILL.md", "notes.md"]] ["run.py"]
        = String.intercalate "\n\n" (contextParts ("demo") ("body") [("notes.md", "text")]
            [WalkEntry.mk [] ["SKILL.md", "notes.md"]] ["run.py"])
      ∧ knHeading ∈ contextParts ("demo") ("body") [("notes.md", "text")]
          [WalkEntry.mk [] ["SKILL.md", "notes.md"]] ["run.py"]
      ∧ scrHeading ∈ contextParts ("demo") ("body") [("notes.md", "text")]
          [WalkEntry.mk [] ["SKILL.md", "notes.md"]] ["run.py"] :=
  ⟨(context_assembly_structure ("demo") ("body") [("notes.md", "text")]
      [WalkEntry.mk [] ["SKILL.md", "notes.md"]] ["run.py"]).1,
   (context_assembly_structure ("demo") ("body") [("notes.md", "text")]
      [WalkEntry.mk [] ["SKILL.md", "notes.md"]] ["run.py"]).2.2.2.1 (by decide),
   (context_assembly_structure ("demo") ("body") [("notes.md", "text")]
      [WalkEntry.mk [] ["SKILL.md", "notes.md"]] ["run.py"]).2.2.2.2.1 (by decide)⟩

/-! ## C10: interactive-loop skill activation -/

/-- C10: the interactive router activates a skill exactly when a registered
name occurs as a substring of the lowercased user input and no skill is
active; a registered name holding an ASCII uppercase character can never be
returned by the activation scan (lowercasing the input removes every ASCII
uppercase character, so the substring test always fails); and once a skill is
active, no input changes the active skill. -/
theorem skill_activation_substring :
    (∀ (names : List String) (user_input : String),
        routerStep (RouterState.mk names none) user_input
          = RouterState.mk names (routerActivate names user_input))
      ∧ (∀ (names : List String) (user_input k : String), hasUpper k = true →
          routerActivate names user_input ≠ some k)
      ∧ (∀ (st : RouterState) (user_input : String) (a : String), st.active = some a →
          (routerStep st user_input).active = some a) := by
  refine ⟨?_, ?_, ?_⟩
  · intro names user_input
    unfold routerStep
    cases h : routerActivate names user_input with
    | none => simp [h]
    | some n => simp [h]
  · intro names user_input k hk heq
    unfold routerActivate at heq
    have hp0 := List.find?_some heq
    have hp : pyIn k (pyLower user_input) = true := hp0
    rw [pyIn_lower_false hk] at hp
    cases hp
  · intro st user_input a h
    simp [routerStep, h]

/-- C10 witness: a lowercase name activates on matching input; a name with an
uppercase character is never activated even by input mentioning it; an active
skill stays active. -/
theorem skill_activation_substring_witness :
    routerStep (RouterState.mk ["data"] none) "use data now"
        = RouterState.mk ["data"] (routerActivate ["data"] "use data now")
      ∧ routerActivate ["MySkill"] ("please use MySkill") ≠ some ("MySkill")
      ∧ (routerStep (RouterState.mk ["data"] (some "data")) "other").active = some "data" :=
  ⟨skill_activation_substring.1 ["data"] "use data now",
   skill_activation_substring.2.1 ["MySkill"] ("please use MySkill") ("MySkill") (by decide),
   skill_activation_substring.2.2 (RouterState.mk ["data"] (some "data")) "other" "data" rfl⟩
